import Mathlib

/-!
Shallow embedding of the rwtxt core (src/main.go) together with a
spec-modelled document store (the `db` package of this repository is not
under src/, so its operations are modelled from the spec).  Strings are
`List Char`; timestamps are naturals (or rationals where fractional
seconds matter); fallible operations return `Option`/`Except`.
-/

namespace Rwtxt

/-- Go `unicode.IsSpace`: the white-space code points accepted by
`strings.TrimSpace` (src/main.go uses `strings.TrimSpace`). -/
def isSpace (c : Char) : Bool :=
  c.toNat = 9 || c.toNat = 10 || c.toNat = 11 || c.toNat = 12 || c.toNat = 13 ||
  c.toNat = 32 || c.toNat = 0x85 || c.toNat = 0xA0 || c.toNat = 0x1680 ||
  (0x2000 ≤ c.toNat && c.toNat ≤ 0x200A) || c.toNat = 0x2028 || c.toNat = 0x2029 ||
  c.toNat = 0x202F || c.toNat = 0x205F || c.toNat = 0x3000

/-- Go `strings.TrimSpace`: drop white space from both ends. -/
def trimSpace (s : List Char) : List Char :=
  ((s.dropWhile isSpace).reverse.dropWhile isSpace).reverse

/-- Go `strings.ToLower` restricted to the ASCII letters that appear in
domain names (src/main.go `handleLogin` lowercases the form value). -/
def toLower (s : List Char) : List Char :=
  s.map Char.toLower

/-- src/main.go:24: the placeholder sentinel `introText`. -/
def introText : List Char := "This note is empty. Click to edit it.".data

/-- The canonical public domain name. -/
def pubDomain : List Char := "public".data

/-- src/db `File` record as used by src/main.go: id, slug, content,
creation/modification timestamps, owning domain. -/
structure File where
  id : List Char
  slug : List Char
  data : List Char
  created : Nat
  modified : Nat
  domain : List Char
  views : Nat
deriving Repr, DecidableEq

/-- The Go zero value of `db.File` (src/main.go:439 `var editFile db.File`). -/
def File.zero : File :=
  { id := [], slug := [], data := [], created := 0, modified := 0, domain := [], views := 0 }

/-- A registered domain record: name, password, visibility flag. -/
structure DomainRec where
  name : List Char
  password : List Char
  isPublic : Bool
deriving Repr, DecidableEq

/-- The document-store state shared by every handler (module-level `fs`
in src/main.go).  Modelled from the spec: the `db` package
(`db.FileSystem`) is code of this repository absent from src/. -/
structure FS where
  files : List File
  domains : List DomainRec
  keys : List (List Char × List Char)
  blobs : List (List Char × List Char × List Nat)
  similar : List (List Char × List (List Char))
  nextKey : Nat
deriving Repr, DecidableEq

/-- Modelled from the spec (missing src/db `Save`): "upserts by id";
a new id is appended in creation order. -/
def FS.save (fs : FS) (f : File) : FS :=
  if fs.files.any (fun g => g.id = f.id) then
    { fs with files := fs.files.map (fun g => if g.id = f.id then f else g) }
  else
    { fs with files := fs.files ++ [f] }

/-- Modelled from the spec (missing src/db `Get`): "returns every
document matching (domain, slug), preserving creation order". -/
def FS.get (fs : FS) (slug domain : List Char) : List File :=
  fs.files.filter (fun g => g.slug = slug ∧ g.domain = domain)

/-- Modelled from the spec (missing src/db `GetAll`): every document of
the domain, in creation order. -/
def FS.getAll (fs : FS) (domain : List Char) : List File :=
  fs.files.filter (fun g => g.domain = domain)

/-- Modelled from the spec (missing src/db `CheckKey` / `ResolveKey`):
"lookup resolves token to domain name", or fails. -/
def FS.checkKey (fs : FS) (token : List Char) : Option (List Char) :=
  (fs.keys.find? (fun kv => kv.1 = token)).map (fun kv => kv.2)

/-- Modelled from the spec (missing src/db `GetDomainFromName` /
`Describe`): the record and its visibility, or a not-found failure. -/
def FS.getDomainFromName (fs : FS) (name : List Char) : Option (DomainRec × Bool) :=
  (fs.domains.find? (fun d => d.name = name)).map (fun d => (d, d.isPublic))

/-- Modelled from the spec (missing src/db `SetDomain` /
`RegisterDomain`): registers the domain, a conflict if already there. -/
def FS.setDomain (fs : FS) (name password : List Char) : Except (List Char) FS :=
  if (fs.domains.find? (fun d => d.name = name)).isSome then
    Except.error "domain already exists".data
  else
    Except.ok { fs with domains := fs.domains ++ [⟨name, password, false⟩] }

/-- Modelled from the spec (missing src/db `SetKey` / `IssueKey`):
verifies the password and issues a fresh token for the domain; existing
tokens stay valid. -/
def FS.setKey (fs : FS) (name password : List Char) : Except (List Char) (FS × List Char) :=
  match fs.domains.find? (fun d => d.name = name) with
  | none => Except.error "domain not found".data
  | some d =>
    if d.password = password then
      let tok := "key-".data ++ (Nat.toDigits 10 fs.nextKey).reverse
      Except.ok ({ fs with keys := fs.keys ++ [(tok, name)], nextKey := fs.nextKey + 1 }, tok)
    else
      Except.error "bad password".data

/-- The live-sync wire message (src/main.go:144 `Payload`). -/
structure Payload where
  id : List Char := []
  domainKey : List Char := []
  domain : List Char := []
  data : List Char := []
  slug : List Char := []
  message : List Char := []
  success : Bool := false
deriving Repr, DecidableEq

/-- Per-connection state of `handleWebsocket` (src/main.go:437-439):
the two validation flags and the last-edited file. -/
structure WsState where
  domainChecked : Bool
  domainValidated : Bool
  editFile : File
deriving Repr, DecidableEq

/-- The state a fresh connection starts in. -/
def WsState.init : WsState :=
  { domainChecked := false, domainValidated := false, editFile := File.zero }

/-- src/main.go:458-468: the once-per-connection validation attempt.
`public` always validates; any other domain validates iff the
accompanying key resolves. -/
def wsCheck (fs : FS) (st : WsState) (p : Payload) : WsState :=
  if st.domainChecked then st
  else
    { st with
      domainChecked := true
      domainValidated :=
        if p.domain = pubDomain then true
        else (fs.checkKey p.domainKey).isSome }

/-- The document record built in the save branch
(src/main.go:479-485): normalized data, defaulted domain, fresh
creation timestamp. -/
def savedRecord (p : Payload) (now : Nat) : File :=
  { id := p.id, slug := p.slug,
    data := if trimSpace p.data = introText then [] else trimSpace p.data,
    created := now, modified := 0,
    domain := if p.domain = [] then pubDomain else p.domain, views := 0 }

/-- What one loop iteration of `handleWebsocket` produced. -/
structure StepOut where
  fs : FS
  st : WsState
  reply : Payload
  didSave : Bool
deriving Repr, DecidableEq

/-- src/main.go:441-512: one iteration of the `handleWebsocket` read
loop on an inbound message `p`, at wall-clock time `now`. -/
def wsStep (fs : FS) (st : WsState) (p : Payload) (now : Nat) : StepOut :=
  let st := wsCheck fs st p
  if p.id ≠ [] ∧ st.domainValidated then
    let pdomain := if p.domain = [] then pubDomain else p.domain
    let data := trimSpace p.data
    let data := if data = introText then [] else data
    let editFile : File :=
      { id := p.id, slug := p.slug, data := data, created := now,
        modified := 0, domain := pdomain, views := 0 }
    let fs1 := fs.save editFile
    let got := fs1.get p.slug pdomain
    { fs := fs1
      st := { st with editFile := editFile }
      reply := { id := p.id, slug := p.slug, message := "unique_slug".data,
                 success := got.length < 2 }
      didSave := true }
  else
    { fs := fs, st := st
      reply := { message := "not saving".data, success := false }
      didSave := false }

/-- The observable outcome of a whole read loop. -/
structure RunOut where
  fs : FS
  st : WsState
  replies : List Payload
  saved : List File
deriving Repr, DecidableEq

/-- The whole read loop: process the inbound messages in order,
collecting the acknowledgments and the records handed to Save. -/
def wsRun (fs : FS) (st : WsState) (msgs : List (Payload × Nat)) : RunOut :=
  match msgs with
  | [] => { fs := fs, st := st, replies := [], saved := [] }
  | (p, now) :: rest =>
    let out := wsStep fs st p now
    let r := wsRun out.fs out.st rest
    { fs := r.fs, st := r.st, replies := out.reply :: r.replies,
      saved := (if out.didSave then [out.st.editFile] else []) ++ r.saved }

/-- One inbound message together with the transport outcome of writing
its reply: `writeFails` makes the loop break at once
(src/main.go:498-500 and 507-509). -/
structure InMsg where
  p : Payload
  now : Nat
  writeFails : Bool
deriving Repr, DecidableEq

/-- src/main.go:441-512 with reply writes modelled: a failed write
breaks out of the read loop immediately, skipping the remaining
messages; the second component records whether the session ended that
way (true) or by the read error that ends the message stream (false). -/
def wsSession (fs : FS) (st : WsState) : List InMsg → RunOut × Bool
  | [] => ({ fs := fs, st := st, replies := [], saved := [] }, false)
  | m :: rest =>
    let out := wsStep fs st m.p m.now
    if m.writeFails then
      ({ fs := out.fs, st := out.st, replies := [out.reply],
         saved := if out.didSave then [out.st.editFile] else [] }, true)
    else
      let r := wsSession out.fs out.st rest
      ({ fs := r.1.fs, st := r.1.st, replies := out.reply :: r.1.replies,
         saved := (if out.didSave then [out.st.editFile] else []) ++ r.1.saved }, r.2)

/-- src/main.go:445-453: the action taken when the connection
terminates — invoke the similarity indexer for the last-edited file
when one exists and its domain is not public. -/
def wsClose (st : WsState) : Option (List Char × List Char) :=
  if st.editFile.id ≠ [] then
    if st.editFile.domain ≠ pubDomain then some (st.editFile.domain, st.editFile.id)
    else none
  else none

/-- src/main.go:430-514: the error `handleWebsocket` itself returns
after the loop breaks on a read error: the indexer's outcome is only
logged (the assignment at line 448 targets the loop-shadowed `err`),
so the session result carries no error whatever the indexer did. -/
def wsSessionResult (indexerOutcome : Except (List Char) Unit) : Option (List Char) :=
  match indexerOutcome with
  | Except.ok _ => none
  | Except.error _ => none

/-- The indexer invocation a finished session performs: only the
read-error exit of the loop (src/main.go:442-454) reaches the
`addSimilar` call; the write-failure exits do not. -/
def sessionCloseInvocation (r : RunOut × Bool) : Option (List Char × List Char) :=
  if r.2 then none else wsClose r.1.st

/-- The store with nothing in it yet. -/
def emptyFS : FS :=
  { files := [], domains := [], keys := [], blobs := [], similar := [], nextKey := 0 }

/-- A sample stored document used to instantiate theorems. -/
def fileA : File :=
  { File.zero with id := "a".data, slug := "notes".data, domain := pubDomain }

/-- A store already holding `fileA`. -/
def fsWithA : FS := { emptyFS with files := [fileA] }

/-- A connection that has passed validation. -/
def validatedState : WsState :=
  { domainChecked := true, domainValidated := true, editFile := File.zero }

/-- A second save colliding with `fileA` on (domain, slug). -/
def payloadB : Payload :=
  { id := "b".data, domain := pubDomain, slug := "notes".data, data := "hi".data }

/-- A save whose data is the sentinel surrounded by white space. -/
def payloadIntro : Payload :=
  { id := "a".data, domain := pubDomain, slug := "s".data,
    data := ("  ".data ++ introText ++ "  ".data) }

/-- A first message for a private domain whose key resolves nowhere. -/
def payloadBadKey : Payload :=
  { id := "a".data, domain := "acme".data, domainKey := "k".data }

/-- A store where the token `good` resolves to the domain `acme`. -/
def fsAcmeKey : FS := { emptyFS with keys := [("good".data, "acme".data)] }

/-- A message for `acme` carrying the key that does resolve. -/
def payloadGoodKey : Payload :=
  { id := "x".data, domain := "acme".data, domainKey := "good".data, slug := "s".data }

/-- A message whose reply write succeeds. -/
def inMsgOk : InMsg := { p := payloadGoodKey, now := 1, writeFails := false }

/-- A message whose reply write fails, breaking the loop. -/
def inMsgWriteFail : InMsg := { p := payloadGoodKey, now := 1, writeFails := true }

/-- The two persistence actions the compactor can issue on a tick
(src/main.go:179 `DeleteOldKeys`, :183 `DumpSQL`). -/
inductive CAction where
  | evictExpiredKeys
  | flush
deriving Repr, DecidableEq

/-- What the compactor observes on one tick of its loop: the wall
clock, the store's last-modified stamp, and whether the flush would
fail.  Times are rational seconds, since the code compares
`time.Since(..).Seconds()` as floating-point seconds. -/
structure Tick where
  now : ℚ
  lastModified : ℚ
  flushFails : Bool
deriving Repr, DecidableEq

/-- src/main.go:171-189, one iteration of the background loop: when
idle for more than 3s and more than 10s past the last dump, evict then
flush and re-record the dump stamp; the flush outcome is only logged
and influences nothing. -/
def compactorTick (lastDumped : ℚ) (t : Tick) : ℚ × List CAction :=
  if 3 < t.now - t.lastModified ∧ 10 < t.now - lastDumped then
    (t.now, [CAction.evictExpiredKeys, CAction.flush])
  else
    (lastDumped, [])

/-- The perpetual loop, observed over a finite list of ticks: every
tick is processed whatever the previous flush outcomes were. -/
def compactorRun (lastDumped : ℚ) (ticks : List Tick) : ℚ × List (List CAction) :=
  match ticks with
  | [] => (lastDumped, [])
  | t :: rest =>
    let r := compactorTick lastDumped t
    let r' := compactorRun r.1 rest
    (r'.1, r.2 :: r'.2)

/-- Modelled from the spec (missing src/db `UpdateViews` /
`IncrementView`): best-effort view-counter bump. -/
def FS.updateViews (fs : FS) (f : File) : FS :=
  { fs with
      files := fs.files.map
        (fun g => if g.id = f.id then { g with views := g.views + 1 } else g) }

/-- The document-derived fields of the rendered view page
(template rendering itself is outside the core). -/
structure ViewResponse where
  page : List Char
  fileId : List Char
  title : List Char
  editOnly : Bool
deriving Repr, DecidableEq

/-- src/main.go:562-628, the view path once a single match `f` was
found: the view-count increment runs detached with outcome `ok`, which
feeds only the log; the response is built from `f` alone. -/
def handleViewExisting (fs : FS) (page : List Char) (f : File) (ok : Bool) :
    ViewResponse × FS × List (List Char) :=
  let fsAfter := if ok then fs.updateViews f else fs
  let logs := if ok then [] else ["view increment failed".data]
  ({ page := page, fileId := f.id, title := f.slug,
     editOnly := trimSpace f.data = [] }, fsAfter, logs)

/-- White-space tokenization of a document body. -/
def tokens (s : List Char) : List (List Char) :=
  (List.splitOnP isSpace s).filter (fun w => w ≠ [])

/-- Modelled from the spec (the documentsimilarity dependency is not
under src/): the token-set overlap ratio of two texts. -/
def jaccard (a b : List Char) : ℚ :=
  let ta := (tokens a).dedup
  let tb := (tokens b).dedup
  let inter := ta.filter (fun w => w ∈ tb)
  let uni := (ta ++ tb).dedup
  if uni.length = 0 then 0 else (inter.length : ℚ) / (uni.length : ℚ)

/-- One scored corpus entry: its position in the corpus and its
similarity score. -/
structure Scored where
  index : Nat
  score : ℚ
deriving Repr, DecidableEq

/-- Modelled from the spec: the ranking order — descending score, ties
in original corpus order. -/
def scoredLE (a b : Scored) : Prop :=
  b.score < a.score ∨ (a.score = b.score ∧ a.index ≤ b.index)

instance : DecidableRel scoredLE := fun a b =>
  inferInstanceAs (Decidable (b.score < a.score ∨ (a.score = b.score ∧ a.index ≤ b.index)))

instance : IsTotal Scored scoredLE where
  total a b := by
    unfold scoredLE
    rcases lt_trichotomy a.score b.score with h | h | h
    · exact Or.inr (Or.inl h)
    · rcases Nat.le_total a.index b.index with hi | hi
      · exact Or.inl (Or.inr ⟨h, hi⟩)
      · exact Or.inr (Or.inr ⟨h.symm, hi⟩)
    · exact Or.inl (Or.inl h)

instance : IsTrans Scored scoredLE where
  trans a b c hab hbc := by
    unfold scoredLE at hab hbc ⊢
    rcases hab with hab | ⟨hab, hia⟩
    · rcases hbc with hbc | ⟨hbc, hib⟩
      · exact Or.inl (hbc.trans hab)
      · exact Or.inl (hbc ▸ hab)
    · rcases hbc with hbc | ⟨hbc, hib⟩
      · exact Or.inl (hbc.trans_eq hab.symm)
      · exact Or.inr ⟨hab.trans hbc, hia.trans hib⟩

/-- Modelled from the spec: rank every corpus entry by similarity to
the target text, descending, ties broken by original corpus order. -/
def rankBySimilarity (maindocument : List Char) (documents : List (List Char)) :
    List Scored :=
  List.insertionSort scoredLE
    ((List.range documents.length).map
      (fun i => { index := i, score := jaccard maindocument (documents.getD i []) }))

/-- src/main.go:829-836: the comparison corpus `addSimilar` gathers —
every file of the domain whose id is not the target's. -/
def corpusFiles (fs : FS) (domain fileid : List Char) : List File :=
  (fs.getAll domain).filter (fun file => file.id ≠ fileid)

/-- The `ids` slice accumulated by the loop in `addSimilar`. -/
def corpusIds (fs : FS) (domain fileid : List Char) : List (List Char) :=
  (corpusFiles fs domain fileid).map (fun file => file.id)

/-- The `documents` slice accumulated by the loop in `addSimilar`. -/
def corpusDocs (fs : FS) (domain fileid : List Char) : List (List Char) :=
  (corpusFiles fs domain fileid).map (fun file => file.data)

/-- src/main.go:828-832: `maindocument` is the data of the last file
matching the target id (the loop keeps overwriting it), or empty. -/
def mainDocument (fs : FS) (domain fileid : List Char) : List Char :=
  (((fs.getAll domain).filter (fun file => file.id = fileid)).map
    (fun file => file.data)).getLastD []

/-- src/main.go:843-850: the scored similarities, truncated to 5. -/
def ranking (fs : FS) (domain fileid : List Char) : List Scored :=
  (rankBySimilarity (mainDocument fs domain fileid) (corpusDocs fs domain fileid)).take 5

/-- src/main.go:851-854: the id list `addSimilar` persists. -/
def similarIdsFor (fs : FS) (domain fileid : List Char) : List (List Char) :=
  (ranking fs domain fileid).map (fun s => (corpusIds fs domain fileid).getD s.index [])

/-- src/main.go:824-858 `addSimilar`, with the spec-modelled
`SetSimilar` persisting the ordered id list against the target. -/
def addSimilar (fs : FS) (domain fileid : List Char) : FS :=
  { fs with
      similar :=
        (fileid, similarIdsFor fs domain fileid) ::
          fs.similar.filter (fun kv => kv.1 ≠ fileid) }

/-- Truncation to 32 bits. -/
def w32 (x : Nat) : Nat := x % 4294967296

/-- 32-bit right rotation. -/
def rotr32 (n x : Nat) : Nat := w32 ((x >>> n) ||| (x <<< (32 - n)))

/-- FIPS 180-4 σ0. -/
def smallSigma0 (x : Nat) : Nat := (rotr32 7 x) ^^^ (rotr32 18 x) ^^^ (x >>> 3)

/-- FIPS 180-4 σ1. -/
def smallSigma1 (x : Nat) : Nat := (rotr32 17 x) ^^^ (rotr32 19 x) ^^^ (x >>> 10)

/-- FIPS 180-4 Σ0. -/
def bigSigma0 (x : Nat) : Nat := (rotr32 2 x) ^^^ (rotr32 13 x) ^^^ (rotr32 22 x)

/-- FIPS 180-4 Σ1. -/
def bigSigma1 (x : Nat) : Nat := (rotr32 6 x) ^^^ (rotr32 11 x) ^^^ (rotr32 25 x)

/-- The SHA-256 round constants (decimal rendering of the FIPS 180-4
table). -/
def shaK : List Nat :=
  [1116352408, 1899447441, 3049323471, 3921009573, 961987163,
   1508970993, 2453635748, 2870763221, 3624381080, 310598401,
   607225278, 1426881987, 1925078388, 2162078206, 2614888103,
   3248222580, 3835390401, 4022224774, 264347078, 604807628,
   770255983, 1249150122, 1555081692, 1996064986, 2554220882,
   2821834349, 2952996808, 3210313671, 3336571891, 3584528711,
   113926993, 338241895, 666307205, 773529912, 1294757372,
   1396182291, 1695183700, 1986661051, 2177026350, 2456956037,
   2730485921, 2820302411, 3259730800, 3345764771, 3516065817,
   3600352804, 4094571909, 275423344, 430227734, 506948616,
   659060556, 883997877, 958139571, 1322822218, 1537002063,
   1747873779, 1955562222, 2024104815, 2227730452, 2361852424,
   2428436474, 2756734187, 3204031479, 3329325298]

/-- The SHA-256 initial hash state (decimal rendering of the FIPS
180-4 values). -/
def shaH0 : List Nat :=
  [1779033703, 3144134277, 1013904242, 2773480762,
   1359893119, 2600822924, 528734635, 1541459225]

/-- Big-endian byte decomposition, `n` bytes. -/
def bytesBE : Nat → Nat → List Nat
  | 0, _ => []
  | n + 1, v => bytesBE n (v / 256) ++ [v % 256]

/-- FIPS 180-4 padding: append 0x80, zeros to 56 mod 64, then the
bit length as 8 big-endian bytes. -/
def shaPad (msg : List Nat) : List Nat :=
  msg ++ [0x80] ++ List.replicate ((119 - (msg.length % 64)) % 64) 0
    ++ bytesBE 8 (8 * msg.length)

/-- The `i`-th big-endian 32-bit word of a byte list. -/
def wordAt (bytes : List Nat) (i : Nat) : Nat :=
  ((bytes.getD (4 * i) 0 * 256 + bytes.getD (4 * i + 1) 0) * 256
    + bytes.getD (4 * i + 2) 0) * 256 + bytes.getD (4 * i + 3) 0

/-- All 32-bit words of a byte list. -/
def wordsOf (bytes : List Nat) : List Nat :=
  (List.range (bytes.length / 4)).map (wordAt bytes)

/-- Extend a 16-word block schedule by `n` words. -/
def extendSchedule (w : List Nat) : Nat → List Nat
  | 0 => w
  | n + 1 =>
    let w' := extendSchedule w n
    let t := w'.length
    w' ++ [w32 (smallSigma1 (w'.getD (t - 2) 0) + w'.getD (t - 7) 0 +
      smallSigma0 (w'.getD (t - 15) 0) + w'.getD (t - 16) 0)]

/-- One SHA-256 round on the 8-word working state. -/
def compressStep (sw sk : Nat) (s : List Nat) : List Nat :=
  match s with
  | [a, b, c, d, e, f, g, h] =>
    let t1 := w32 (h + bigSigma1 e + ((e &&& f) ^^^ ((e ^^^ 4294967295) &&& g)) + sk + sw)
    let t2 := w32 (bigSigma0 a + ((a &&& b) ^^^ (a &&& c) ^^^ (b &&& c)))
    [w32 (t1 + t2), a, b, c, w32 (d + t1), e, f, g]
  | _ => s

/-- Compress one 64-byte block into the hash state. -/
def compressBlock (h : List Nat) (block : List Nat) : List Nat :=
  let w := extendSchedule (wordsOf block) 48
  let s := (List.range 64).foldl (fun s t => compressStep (w.getD t 0) (shaK.getD t 0) s) h
  (List.range 8).map (fun i => w32 (h.getD i 0 + s.getD i 0))

/-- Split padded input into 64-byte blocks. -/
def shaBlocks (bytes : List Nat) : List (List Nat) :=
  (List.range (bytes.length / 64)).map (fun i => (bytes.drop (64 * i)).take 64)

/-- SHA-256 digest (32 bytes) of a byte list.  Go's `crypto/sha256`
implements the same FIPS 180-4 function. -/
def sha256 (msg : List Nat) : List Nat :=
  let hfinal := (shaBlocks (shaPad msg)).foldl compressBlock shaH0
  hfinal.foldr (fun w acc => bytesBE 4 w ++ acc) []

/-- The lowercase hex alphabet. -/
def hexAlphabet : List Char := "0123456789abcdef".data

/-- A lowercase hex digit. -/
def hexDigit (n : Nat) : Char := hexAlphabet.getD n '0'

/-- Lowercase hex rendering of a byte list (Go `fmt.Sprintf("%x", ..)`). -/
def hexOfBytes (bytes : List Nat) : List Char :=
  bytes.foldr (fun b acc => hexDigit (b / 16) :: hexDigit (b % 16) :: acc) []

/-- src/main.go:665-670: the content-derived blob id. -/
def uploadId (content : List Nat) : List Char :=
  "sha256-".data ++ hexOfBytes (sha256 content)

/-- Modelled from the spec (missing src/db `SaveBlob` / `Put`):
idempotent content-addressed store of filename plus payload. -/
def FS.saveBlob (fs : FS) (id name : List Char) (data : List Nat) : FS :=
  { fs with blobs := (id, name, data) :: fs.blobs.filter (fun b => b.1 ≠ id) }

/-- Modelled from the spec (missing src/db `GetBlob` / `Get`):
filename and payload for an id, or a not-found failure. -/
def FS.getBlob (fs : FS) (id : List Char) : Option (List Char × List Nat) :=
  (fs.blobs.find? (fun b => b.1 = id)).map (fun b => b.2)

/-- src/main.go:650-693 `handleUpload` after authorization: hash the
raw content for the id, compress the content (the Go standard gzip
writer, abstracted as `gz`), store it under the id with the original
filename, and return the id. -/
def handleUpload (gz : List Nat → List Nat) (fs : FS) (filename : List Char)
    (content : List Nat) : FS × List Char :=
  let id := uploadId content
  (fs.saveBlob id filename (gz content), id)

/-- The observable outcome of a login request. -/
inductive LoginOutcome where
  | page (domain message : List Char)
  | redirect (domain : List Char) (key : List Char)
deriving Repr, DecidableEq

/-- src/main.go:810-822 `createPage`: save a fresh empty document with
a newly generated id into the domain (the Save error is only logged). -/
def createPage (fs : FS) (domain uuid : List Char) (now : Nat) : FS :=
  fs.save { id := uuid, slug := [], data := [], created := now,
            modified := now, domain := domain, views := 0 }

/-- src/main.go:301-344 `handleMain`'s effect on the store: it creates
a page to write to via `createPage` (line 314) before rendering; its
other calls are reads. -/
def handleMainStore (fs : FS) (domain uuid : List Char) (now : Nat) : FS :=
  createPage fs domain uuid now

/-- src/main.go:365-399 `handleLogin`: normalize the form values,
refuse `public`/empty domains and empty passwords (each of those
rejection paths renders the public main page, which saves a fresh
empty page via `createPage`), create the domain when it does not exist
yet, then issue a key.  `uuid`/`now` stand for the id and timestamp
generated inside `createPage` on the rejection paths. -/
def handleLogin (fs : FS) (domainForm passwordForm uuid : List Char) (now : Nat) :
    FS × LoginOutcome :=
  let domain := trimSpace (toLower domainForm)
  let password := trimSpace passwordForm
  if domain = pubDomain ∨ domain = [] then
    (handleMainStore fs pubDomain uuid now, LoginOutcome.page pubDomain [])
  else if password = [] then
    (handleMainStore fs pubDomain uuid now,
      LoginOutcome.page pubDomain "domain key cannot be empty".data)
  else
    let step1 : Except (List Char) FS :=
      match fs.getDomainFromName domain with
      | some _ => Except.ok fs
      | none => fs.setDomain domain password
    match step1 with
    | Except.error e => (handleMainStore fs pubDomain uuid now, LoginOutcome.page pubDomain e)
    | Except.ok fs1 =>
      match fs1.setKey domain password with
      | Except.error e =>
        (handleMainStore fs1 pubDomain uuid now, LoginOutcome.page pubDomain e)
      | Except.ok r => (r.1, LoginOutcome.redirect domain r.2)

lemma mem_save_self (fs : FS) (f : File) : f ∈ (fs.save f).files := by
  unfold FS.save
  split
  · rename_i h
    rw [List.any_eq_true] at h
    obtain ⟨g, hg, hid⟩ := h
    simp only [decide_eq_true_eq] at hid
    exact List.mem_map.mpr ⟨g, hg, by simp [hid]⟩
  · simp

lemma mem_save_of_mem {fs : FS} {f g : File} (hg : g ∈ fs.files) (hne : g.id ≠ f.id) :
    g ∈ (fs.save f).files := by
  unfold FS.save
  split
  · exact List.mem_map.mpr ⟨g, hg, by simp [hne]⟩
  · simp [hg]

lemma two_le_length_of_mem_of_mem {α} [DecidableEq α] {l : List α} {a b : α}
    (ha : a ∈ l) (hb : b ∈ l) (hne : a ≠ b) : 2 ≤ l.length := by
  have hb' : b ∈ l.erase a := (List.mem_erase_of_ne (Ne.symm hne)).mpr hb
  have h1 : 0 < (l.erase a).length := List.length_pos_of_mem hb'
  have h2 : (l.erase a).length = l.length - 1 := List.length_erase_of_mem ha
  omega

lemma wsCheck_of_checked {fs : FS} {st : WsState} {p : Payload}
    (h : st.domainChecked = true) : wsCheck fs st p = st := by
  unfold wsCheck
  simp [h]

lemma wsStep_eq_save (fs : FS) (st : WsState) (p : Payload) (now : Nat)
    (h : p.id ≠ [] ∧ (wsCheck fs st p).domainValidated = true) :
    wsStep fs st p now =
      { fs := fs.save (savedRecord p now),
        st := { wsCheck fs st p with editFile := savedRecord p now },
        reply := { id := p.id, slug := p.slug, message := "unique_slug".data,
                   success := decide (((fs.save (savedRecord p now)).get p.slug
                     (if p.domain = [] then pubDomain else p.domain)).length < 2) },
        didSave := true } := by
  unfold wsStep
  rw [if_pos h]
  rfl

lemma wsStep_eq_skip (fs : FS) (st : WsState) (p : Payload) (now : Nat)
    (h : ¬ (p.id ≠ [] ∧ (wsCheck fs st p).domainValidated = true)) :
    wsStep fs st p now =
      { fs := fs, st := wsCheck fs st p,
        reply := { message := "not saving".data, success := false },
        didSave := false } := by
  unfold wsStep
  rw [if_neg h]

/-- C1: a live-sync save on a validated connection with a non-empty id
is acknowledged with the same id and slug, message `unique_slug`, and a
success flag true iff `Get(slug, domain)` finds fewer than 2 documents
after the save; a second distinct document saved under an occupied
(domain, slug) pair is acknowledged with success = false. -/
theorem claim1_save_ack (fs : FS) (st : WsState) (p : Payload) (now : Nat)
    (hval : (wsCheck fs st p).domainValidated = true)
    (hid : p.id ≠ []) :
    (wsStep fs st p now).reply.id = p.id ∧
    (wsStep fs st p now).reply.slug = p.slug ∧
    (wsStep fs st p now).reply.message = "unique_slug".data ∧
    ((wsStep fs st p now).reply.success = true ↔
      ((wsStep fs st p now).fs.get p.slug
        (if p.domain = [] then pubDomain else p.domain)).length < 2) ∧
    ((∃ g ∈ fs.files, g.slug = p.slug ∧
        g.domain = (if p.domain = [] then pubDomain else p.domain) ∧ g.id ≠ p.id) →
      (wsStep fs st p now).reply.success = false) := by
  rw [wsStep_eq_save fs st p now ⟨hid, hval⟩]
  refine ⟨rfl, rfl, rfl, by simp, ?_⟩
  rintro ⟨g, hg, hslug, hdom, hgid⟩
  simp only [decide_eq_false_iff_not, not_lt]
  set pdomain := if p.domain = [] then pubDomain else p.domain with hpd
  set f : File := savedRecord p now with hf
  have hfmem : f ∈ ((fs.save f).get p.slug pdomain) := by
    rw [FS.get, List.mem_filter]
    exact ⟨mem_save_self fs f, by simp [hf, savedRecord, hpd]⟩
  have hgmem : g ∈ ((fs.save f).get p.slug pdomain) := by
    rw [FS.get, List.mem_filter]
    refine ⟨mem_save_of_mem hg (by simp [hf, savedRecord, hgid]), by simp [hslug, hdom]⟩
  have hne : f ≠ g := by
    intro hcontra
    apply hgid
    rw [← hcontra, hf]
    rfl
  exact two_le_length_of_mem_of_mem hfmem hgmem hne

/-- C1 witness. -/
theorem claim1_save_ack_witness :
    (wsCheck fsWithA validatedState payloadB).domainValidated = true ∧
    payloadB.id ≠ [] ∧
    (wsStep fsWithA validatedState payloadB 7).reply.success = false := by
  have h := claim1_save_ack fsWithA validatedState payloadB 7 (by decide) (by decide)
  exact ⟨by decide, by decide, h.2.2.2.2 ⟨fileA, by simp [fsWithA, emptyFS], by decide⟩⟩

/-- C5: the content handed to Save is the message's data trimmed of
surrounding white space, collapsed to empty when it equals the
placeholder sentinel; the record carries the freshly generated
timestamp `now`, and it is the record that ends up in the store. -/
theorem claim5_content_normalization (fs : FS) (st : WsState) (p : Payload) (now : Nat)
    (hval : (wsCheck fs st p).domainValidated = true)
    (hid : p.id ≠ []) :
    (wsStep fs st p now).st.editFile.data =
      (if trimSpace p.data = introText then [] else trimSpace p.data) ∧
    (wsStep fs st p now).st.editFile.created = now ∧
    (wsStep fs st p now).st.editFile ∈ (wsStep fs st p now).fs.files := by
  rw [wsStep_eq_save fs st p now ⟨hid, hval⟩]
  exact ⟨rfl, rfl, mem_save_self fs _⟩

/-- C5 witness. -/
theorem claim5_content_normalization_witness :
    payloadIntro.id ≠ [] ∧
    (wsStep emptyFS validatedState payloadIntro 4).st.editFile.data =
      (if trimSpace payloadIntro.data = introText then [] else trimSpace payloadIntro.data) ∧
    (wsStep emptyFS validatedState payloadIntro 4).st.editFile.created = 4 := by
  have h := claim5_content_normalization emptyFS validatedState payloadIntro 4 (by decide)
    (by decide)
  exact ⟨by decide, h.1, h.2.1⟩

/-- C6: a message on an unvalidated connection, or one with an empty
document id, mutates nothing in the store and is acknowledged with
message `not saving` and success = false. -/
theorem claim6_not_saving (fs : FS) (st : WsState) (p : Payload) (now : Nat)
    (h : (wsCheck fs st p).domainValidated = false ∨ p.id = []) :
    (wsStep fs st p now).fs = fs ∧
    (wsStep fs st p now).reply.message = "not saving".data ∧
    (wsStep fs st p now).reply.success = false := by
  have hcond : ¬ (p.id ≠ [] ∧ (wsCheck fs st p).domainValidated) := by
    rcases h with h | h
    · rintro ⟨-, hv⟩
      rw [h] at hv
      exact Bool.false_ne_true hv
    · rintro ⟨hne, -⟩
      exact hne h
  unfold wsStep
  rw [if_neg hcond]
  exact ⟨rfl, rfl, rfl⟩

lemma wsStep_preserves_flags (fs : FS) (st : WsState) (p : Payload) (now : Nat)
    (hchk : st.domainChecked = true) :
    (wsStep fs st p now).st.domainChecked = true ∧
    (wsStep fs st p now).st.domainValidated = st.domainValidated := by
  by_cases h : (p.id ≠ [] ∧ (wsCheck fs st p).domainValidated = true)
  · rw [wsStep_eq_save fs st p now h, wsCheck_of_checked hchk]
    exact ⟨hchk, rfl⟩
  · rw [wsStep_eq_skip fs st p now h, wsCheck_of_checked hchk]
    exact ⟨hchk, rfl⟩

lemma wsStep_stuck (fs : FS) (st : WsState) (p : Payload) (now : Nat)
    (hchk : st.domainChecked = true) (hval : st.domainValidated = false) :
    wsStep fs st p now =
      { fs := fs, st := st,
        reply := { message := "not saving".data, success := false }, didSave := false } := by
  have h : ¬ (p.id ≠ [] ∧ (wsCheck fs st p).domainValidated = true) := by
    rintro ⟨-, hv⟩
    rw [wsCheck_of_checked hchk, hval] at hv
    exact Bool.false_ne_true hv
  rw [wsStep_eq_skip fs st p now h, wsCheck_of_checked hchk]

lemma wsStep_flags (fs : FS) (st : WsState) (p : Payload) (now : Nat) :
    (wsStep fs st p now).st.domainChecked = (wsCheck fs st p).domainChecked ∧
    (wsStep fs st p now).st.domainValidated = (wsCheck fs st p).domainValidated := by
  by_cases h : (p.id ≠ [] ∧ (wsCheck fs st p).domainValidated = true)
  · rw [wsStep_eq_save fs st p now h]
    exact ⟨rfl, rfl⟩
  · rw [wsStep_eq_skip fs st p now h]
    exact ⟨rfl, rfl⟩

lemma wsRun_stuck : ∀ (msgs : List (Payload × Nat)) (fs : FS) (st : WsState),
    st.domainChecked = true → st.domainValidated = false →
    wsRun fs st msgs =
      { fs := fs, st := st,
        replies := msgs.map (fun _ => { message := "not saving".data, success := false }),
        saved := [] }
  | [], fs, st, _, _ => by simp [wsRun]
  | (p, now) :: rest, fs, st, hc, hv => by
    have ih := wsRun_stuck rest fs st hc hv
    simp only [wsRun, wsStep_stuck fs st p now hc hv]
    simp [ih]

lemma wsCheck_editFile (fs : FS) (st : WsState) (p : Payload) :
    (wsCheck fs st p).editFile = st.editFile := by
  unfold wsCheck
  split
  · rfl
  · rfl

lemma wsStep_editFile (fs : FS) (st : WsState) (p : Payload) (now : Nat) :
    ((wsStep fs st p now).didSave = true ∧
      (wsStep fs st p now).st.editFile.id = p.id ∧ p.id ≠ []) ∨
    ((wsStep fs st p now).didSave = false ∧
      (wsStep fs st p now).st.editFile = st.editFile) := by
  by_cases h : (p.id ≠ [] ∧ (wsCheck fs st p).domainValidated = true)
  · rw [wsStep_eq_save fs st p now h]
    exact Or.inl ⟨rfl, rfl, h.1⟩
  · rw [wsStep_eq_skip fs st p now h]
    exact Or.inr ⟨rfl, wsCheck_editFile fs st p⟩

lemma wsSession_editFile : ∀ (msgs : List InMsg) (fs : FS) (st : WsState),
    (wsSession fs st msgs).1.st.editFile =
      (wsSession fs st msgs).1.saved.getLastD st.editFile ∧
    (∀ f ∈ (wsSession fs st msgs).1.saved, f.id ≠ [])
  | [], fs, st => by simp [wsSession]
  | m :: rest, fs, st => by
    have ih := wsSession_editFile rest (wsStep fs st m.p m.now).fs
      (wsStep fs st m.p m.now).st
    rcases Bool.eq_false_or_eq_true m.writeFails with hw | hw
    · rcases wsStep_editFile fs st m.p m.now with ⟨hds, hid, hne⟩ | ⟨hds, hef⟩
      · simp only [wsSession, hds, hw, Bool.false_eq_true, if_false, eq_self_iff_true,
          if_true, List.singleton_append]
        refine ⟨by simp, ?_⟩
        intro f hf
        rcases List.mem_singleton.mp hf with rfl
        rw [hid]; exact hne
      · simp only [wsSession, hds, hw, Bool.false_eq_true, if_false, eq_self_iff_true,
          if_true]
        exact ⟨by simp [hef], by simp⟩
    · rcases wsStep_editFile fs st m.p m.now with ⟨hds, hid, hne⟩ | ⟨hds, hef⟩
      · simp only [wsSession, hds, hw, Bool.false_eq_true, if_false, eq_self_iff_true,
          if_true, List.singleton_append]
        constructor
        · rw [ih.1, List.getLastD_cons]
        · intro f hf
          rcases List.mem_cons.mp hf with rfl | hf
          · rw [hid]; exact hne
          · exact ih.2 f hf
      · simp only [wsSession, hds, hw, Bool.false_eq_true, if_false, eq_self_iff_true,
          if_true, List.nil_append]
        refine ⟨?_, ih.2⟩
        rw [ih.1, hef]

/-- C2: validation is attempted exactly once, on the first inbound
message — `public` always validates, any other domain validates iff the
key resolves; after a failed first attempt, no later message (whatever
key it carries) is ever validated or saves to the store, yet every later
message is still processed and acknowledged (the connection stays open). -/
theorem claim2_validate_once (fs : FS) (p0 : Payload) (t0 : Nat)
    (rest : List (Payload × Nat)) :
    (wsStep fs WsState.init p0 t0).st.domainChecked = true ∧
    ((wsStep fs WsState.init p0 t0).st.domainValidated = true ↔
      (p0.domain = pubDomain ∨ (fs.checkKey p0.domainKey).isSome = true)) ∧
    (∀ (st : WsState) (p : Payload) (n : Nat), st.domainChecked = true →
      (wsStep fs st p n).st.domainChecked = true ∧
      (wsStep fs st p n).st.domainValidated = st.domainValidated) ∧
    ((wsStep fs WsState.init p0 t0).st.domainValidated = false →
      (wsStep fs WsState.init p0 t0).fs = fs ∧
      (wsRun (wsStep fs WsState.init p0 t0).fs (wsStep fs WsState.init p0 t0).st rest).fs
        = fs ∧
      (wsRun (wsStep fs WsState.init p0 t0).fs (wsStep fs WsState.init p0 t0).st
        rest).st.domainValidated = false ∧
      (wsRun (wsStep fs WsState.init p0 t0).fs (wsStep fs WsState.init p0 t0).st
        rest).replies.length = rest.length) := by
  have hcheck : wsCheck fs WsState.init p0 =
      { domainChecked := true,
        domainValidated :=
          if p0.domain = pubDomain then true else (fs.checkKey p0.domainKey).isSome,
        editFile := File.zero } := by
    unfold wsCheck WsState.init
    simp
  have hflags := wsStep_flags fs WsState.init p0 t0
  have hchk1 : (wsStep fs WsState.init p0 t0).st.domainChecked = true := by
    rw [hflags.1, hcheck]
  refine ⟨hchk1, ?_, fun st p n hc => wsStep_preserves_flags fs st p n hc, ?_⟩
  · rw [hflags.2, hcheck]
    by_cases h : p0.domain = pubDomain
    · simp [h]
    · simp [h]
  · intro hval
    have hvc : (wsCheck fs WsState.init p0).domainValidated = false :=
      hflags.2.symm.trans hval
    have hns : ¬ (p0.id ≠ [] ∧ (wsCheck fs WsState.init p0).domainValidated = true) := by
      rintro ⟨-, hv⟩
      rw [hvc] at hv
      exact Bool.false_ne_true hv
    have hfsfs : (wsStep fs WsState.init p0 t0).fs = fs := by
      rw [wsStep_eq_skip fs WsState.init p0 t0 hns]
    have hstuck := wsRun_stuck rest (wsStep fs WsState.init p0 t0).fs
      (wsStep fs WsState.init p0 t0).st hchk1 hval
    rw [hstuck]
    exact ⟨hfsfs, hfsfs, hval, by simp⟩

/-- C2 witness. -/
theorem claim2_validate_once_witness :
    (wsStep emptyFS WsState.init payloadBadKey 0).st.domainValidated = false ∧
    (wsRun (wsStep emptyFS WsState.init payloadBadKey 0).fs
      (wsStep emptyFS WsState.init payloadBadKey 0).st [(payloadGoodKey, 1)]).fs
      = emptyFS ∧
    (wsRun (wsStep emptyFS WsState.init payloadBadKey 0).fs
      (wsStep emptyFS WsState.init payloadBadKey 0).st
      [(payloadGoodKey, 1)]).st.domainValidated = false := by
  have h := claim2_validate_once emptyFS payloadBadKey 0 [(payloadGoodKey, 1)]
  have hval : (wsStep emptyFS WsState.init payloadBadKey 0).st.domainValidated = false := by
    decide
  have h3 := h.2.2.2 hval
  exact ⟨hval, h3.2.1, h3.2.2.1⟩

/-- C7 counterexample: a session that saved a document into the
private domain `acme` but whose connection terminated because the
reply write failed (src/main.go:498-500) performs no indexer
invocation, although a document was saved and its domain is not
public — against the claim's "for every termination" iff. -/
theorem claim7_counterexample :
    (wsSession fsAcmeKey WsState.init [inMsgWriteFail]).1.saved ≠ [] ∧
    ((wsSession fsAcmeKey WsState.init [inMsgWriteFail]).1.saved.getLastD
        File.zero).domain ≠ pubDomain ∧
    sessionCloseInvocation (wsSession fsAcmeKey WsState.init [inMsgWriteFail]) = none :=
  ⟨by decide, by decide, by decide⟩

/-- C7 (amended): when the session ends on the read-error path (the
stream of messages is exhausted and the next read fails), the indexer
is invoked exactly when some document was saved during the session and
the last-saved document's domain is not `public`, for that document's
domain and id; a session ended by a reply-write failure performs no
indexer invocation; whatever the indexer's outcome, the session
surfaces no error (it is only logged). -/
theorem claim7_close_indexing (fs : FS) (msgs : List InMsg) :
    ((wsSession fs WsState.init msgs).2 = false →
      sessionCloseInvocation (wsSession fs WsState.init msgs) =
        (if (wsSession fs WsState.init msgs).1.saved ≠ [] ∧
            ((wsSession fs WsState.init msgs).1.saved.getLastD File.zero).domain
              ≠ pubDomain
         then some (((wsSession fs WsState.init msgs).1.saved.getLastD File.zero).domain,
                    ((wsSession fs WsState.init msgs).1.saved.getLastD File.zero).id)
         else none)) ∧
    ((wsSession fs WsState.init msgs).2 = true →
      sessionCloseInvocation (wsSession fs WsState.init msgs) = none) ∧
    (∀ outcome : Except (List Char) Unit, wsSessionResult outcome = none) := by
  refine ⟨?_, ?_, fun outcome => by cases outcome <;> rfl⟩
  · intro hread
    unfold sessionCloseInvocation
    rw [hread]
    rw [if_neg Bool.false_ne_true]
    have hE := wsSession_editFile msgs fs WsState.init
    have hef : (wsSession fs WsState.init msgs).1.st.editFile =
        (wsSession fs WsState.init msgs).1.saved.getLastD File.zero := hE.1
    by_cases hne : (wsSession fs WsState.init msgs).1.saved = []
    · unfold wsClose
      rw [hef, hne]
      simp [File.zero]
    · obtain ⟨s, srest, heq⟩ : ∃ s srest,
          (wsSession fs WsState.init msgs).1.saved = s :: srest := by
        cases hcase : (wsSession fs WsState.init msgs).1.saved with
        | nil => exact absurd hcase hne
        | cons a l => exact ⟨a, l, rfl⟩
      have hlast : (wsSession fs WsState.init msgs).1.saved.getLastD File.zero ∈
          (wsSession fs WsState.init msgs).1.saved := by
        rw [heq, List.getLastD_cons]
        exact List.getLastD_mem_cons srest s
      have hid : ((wsSession fs WsState.init msgs).1.saved.getLastD File.zero).id ≠ [] :=
        hE.2 _ hlast
      unfold wsClose
      rw [hef]
      by_cases hdom : ((wsSession fs WsState.init msgs).1.saved.getLastD File.zero).domain
          = pubDomain
      · rw [if_pos hid, if_neg (fun hcontra => hcontra hdom),
          if_neg (fun hcontra => hcontra.2 hdom)]
      · rw [if_pos hid, if_pos hdom, if_pos ⟨hne, hdom⟩]
  · intro hwrite
    unfold sessionCloseInvocation
    rw [hwrite]
    rfl

/-- C7 witness: a session that saved one document into the private
domain `acme` and ended by the read-error path triggers the indexer
for that document. -/
theorem claim7_close_indexing_witness :
    (wsSession fsAcmeKey WsState.init [inMsgOk]).2 = false ∧
    sessionCloseInvocation (wsSession fsAcmeKey WsState.init [inMsgOk]) =
      some ("acme".data, "x".data) := by
  have h := (claim7_close_indexing fsAcmeKey [inMsgOk]).1 (by decide)
  refine ⟨by decide, ?_⟩
  rw [h]
  decide

/-- C6 witness. -/
theorem claim6_not_saving_witness :
    (wsStep emptyFS WsState.init payloadBadKey 0).fs = emptyFS ∧
    (wsStep emptyFS WsState.init payloadBadKey 0).reply.message = "not saving".data ∧
    (wsStep emptyFS WsState.init payloadBadKey 0).reply.success = false :=
  claim6_not_saving emptyFS WsState.init payloadBadKey 0 (Or.inl (by decide))

lemma compactorRun_length : ∀ (ticks : List Tick) (ld : ℚ),
    (compactorRun ld ticks).2.length = ticks.length
  | [], _ => rfl
  | t :: rest, ld => by
    simp only [compactorRun, List.length_cons]
    rw [compactorRun_length rest]

lemma compactorRun_busy : ∀ (ticks : List Tick) (ld : ℚ),
    (∀ u ∈ ticks, u.now - u.lastModified < 3) →
    ∀ acts ∈ (compactorRun ld ticks).2, acts = []
  | [], _, _ => by simp [compactorRun]
  | t :: rest, ld, h => by
    have ht : t.now - t.lastModified < 3 := h t (List.mem_cons_self t rest)
    have hcond : ¬ (3 < t.now - t.lastModified ∧ 10 < t.now - ld) := by
      rintro ⟨h3, -⟩
      exact absurd h3 (not_lt.mpr ht.le)
    have htick : compactorTick ld t = (ld, []) := by
      unfold compactorTick
      rw [if_neg hcond]
    intro acts hacts
    simp only [compactorRun, htick] at hacts
    rcases List.mem_cons.mp hacts with rfl | hacts
    · rfl
    · exact compactorRun_busy rest ld (fun u hu => h u (List.mem_cons_of_mem t hu)) acts hacts

/-- C4: a compactor tick evicts expired keys and then flushes exactly
when idle time exceeds 3s and time since the last flush exceeds 10s, in
that order, re-recording the flush stamp; the flush outcome changes
nothing about the loop; and under continuous activity (idle time below
3s at every tick) no tick ever flushes, while every tick is still
processed. -/
theorem claim4_compactor (ld : ℚ) (t : Tick) (ticks : List Tick) :
    ((compactorTick ld t).2 = [CAction.evictExpiredKeys, CAction.flush] ↔
      (3 < t.now - t.lastModified ∧ 10 < t.now - ld)) ∧
    ((3 < t.now - t.lastModified ∧ 10 < t.now - ld) → (compactorTick ld t).1 = t.now) ∧
    (¬ (3 < t.now - t.lastModified ∧ 10 < t.now - ld) →
      (compactorTick ld t).2 = [] ∧ (compactorTick ld t).1 = ld) ∧
    (∀ b : Bool, compactorTick ld { t with flushFails := b } = compactorTick ld t) ∧
    ((compactorRun ld ticks).2.length = ticks.length) ∧
    ((∀ u ∈ ticks, u.now - u.lastModified < 3) →
      ∀ acts ∈ (compactorRun ld ticks).2, acts = []) := by
  refine ⟨?_, ?_, ?_, ?_, compactorRun_length ticks ld, compactorRun_busy ticks ld⟩
  · constructor
    · intro hacts
      by_contra hcond
      have : (compactorTick ld t).2 = [] := by
        unfold compactorTick
        rw [if_neg hcond]
      rw [this] at hacts
      exact List.cons_ne_nil _ _ hacts.symm
    · intro hcond
      unfold compactorTick
      rw [if_pos hcond]
  · intro hcond
    unfold compactorTick
    rw [if_pos hcond]
  · intro hcond
    unfold compactorTick
    rw [if_neg hcond]
    exact ⟨rfl, rfl⟩
  · intro b
    rfl

/-- C4 witness: the spec's concrete scenario — last modification 5s
ago and last flush 15s ago flushes; last modification 1s ago does not. -/
theorem claim4_compactor_witness :
    (3 < (15 : ℚ) - 10 ∧ 10 < (15 : ℚ) - 0) ∧
    (compactorTick 0 { now := 15, lastModified := 10, flushFails := false }).2 =
      [CAction.evictExpiredKeys, CAction.flush] ∧
    (compactorTick 0 { now := 15, lastModified := 10, flushFails := false }).1 = 15 ∧
    (∀ u ∈ [({ now := 15, lastModified := 14, flushFails := false } : Tick)],
        u.now - u.lastModified < 3) ∧
    (∀ acts ∈ (compactorRun 0
        [({ now := 15, lastModified := 14, flushFails := false } : Tick)]).2, acts = []) := by
  have h1 := claim4_compactor 0 { now := 15, lastModified := 10, flushFails := false } []
  have h2 := claim4_compactor 0 { now := 15, lastModified := 14, flushFails := false }
    [({ now := 15, lastModified := 14, flushFails := false } : Tick)]
  have hcond : (3 < (15 : ℚ) - 10 ∧ 10 < (15 : ℚ) - 0) := by constructor <;> norm_num
  have hbusy : ∀ u ∈ [({ now := 15, lastModified := 14, flushFails := false } : Tick)],
      u.now - u.lastModified < 3 := by
    intro u hu
    rcases List.mem_singleton.mp hu with rfl
    norm_num
  exact ⟨hcond, h1.1.mpr hcond, h1.2.1 hcond, hbusy, h2.2.2.2.2.2 hbusy⟩

/-- C9: the response of the view path is identical whatever the outcome
of the detached view-count increment; the increment never surfaces as a
failure of the request. -/
theorem claim9_view_increment_detached (fs : FS) (page : List Char) (f : File)
    (ok1 ok2 : Bool) :
    (handleViewExisting fs page f ok1).1 = (handleViewExisting fs page f ok2).1 :=
  rfl

lemma save_preserves_domains_keys (fs : FS) (f : File) :
    (fs.save f).domains = fs.domains ∧ (fs.save f).keys = fs.keys := by
  unfold FS.save
  split
  · exact ⟨rfl, rfl⟩
  · exact ⟨rfl, rfl⟩

/-- C10: after normalization, logging in with a fresh non-public,
non-empty domain and a non-empty password registers the domain with
that password and issues a key (no not-found or conflict error);
`public`, empty domain, or empty password creates no domain and issues
no key (the rejection path only renders the main page, whose
`createPage` write touches documents, not domains or keys). -/
theorem claim10_login_registers (fs : FS) (domainForm passwordForm uuid : List Char)
    (now : Nat) :
    ((trimSpace (toLower domainForm) ≠ pubDomain ∧ trimSpace (toLower domainForm) ≠ [] ∧
      trimSpace passwordForm ≠ [] ∧
      fs.getDomainFromName (trimSpace (toLower domainForm)) = none) →
      (∃ key, (handleLogin fs domainForm passwordForm uuid now).2 =
        LoginOutcome.redirect (trimSpace (toLower domainForm)) key) ∧
      (handleLogin fs domainForm passwordForm uuid now).1.getDomainFromName
          (trimSpace (toLower domainForm)) =
        some (⟨trimSpace (toLower domainForm), trimSpace passwordForm, false⟩, false)) ∧
    ((trimSpace (toLower domainForm) = pubDomain ∨ trimSpace (toLower domainForm) = [] ∨
      trimSpace passwordForm = []) →
      (handleLogin fs domainForm passwordForm uuid now).1.domains = fs.domains ∧
      (handleLogin fs domainForm passwordForm uuid now).1.keys = fs.keys ∧
      ∃ d m, (handleLogin fs domainForm passwordForm uuid now).2 =
        LoginOutcome.page d m) := by
  constructor
  · rintro ⟨hpub, hemp, hpw, hnone⟩
    have hfind : fs.domains.find? (fun d => d.name = trimSpace (toLower domainForm))
        = none := by
      unfold FS.getDomainFromName at hnone
      exact Option.map_eq_none.mp hnone
    have hsd : fs.setDomain (trimSpace (toLower domainForm)) (trimSpace passwordForm) =
        Except.ok { fs with domains := fs.domains ++
          [⟨trimSpace (toLower domainForm), trimSpace passwordForm, false⟩] } := by
      unfold FS.setDomain
      rw [hfind]
      rfl
    have hfind2 : (fs.domains ++
        [(⟨trimSpace (toLower domainForm), trimSpace passwordForm, false⟩ : DomainRec)]).find?
          (fun d => d.name = trimSpace (toLower domainForm)) =
        some ⟨trimSpace (toLower domainForm), trimSpace passwordForm, false⟩ := by
      rw [List.find?_append, hfind]
      simp
    unfold handleLogin
    rw [if_neg (by rintro (h | h); exact hpub h; exact hemp h)]
    rw [if_neg hpw]
    simp only [hnone, hsd]
    unfold FS.setKey
    simp only [hfind2, if_pos rfl]
    constructor
    · exact ⟨_, rfl⟩
    · unfold FS.getDomainFromName
      simp [hfind2]
  · intro h
    unfold handleLogin
    rcases h with h | h | h
    · rw [if_pos (Or.inl h)]
      exact ⟨(save_preserves_domains_keys fs _).1, (save_preserves_domains_keys fs _).2,
        _, _, rfl⟩
    · rw [if_pos (Or.inr h)]
      exact ⟨(save_preserves_domains_keys fs _).1, (save_preserves_domains_keys fs _).2,
        _, _, rfl⟩
    · by_cases hd : (trimSpace (toLower domainForm) = pubDomain ∨
        trimSpace (toLower domainForm) = [])
      · rw [if_pos hd]
        exact ⟨(save_preserves_domains_keys fs _).1, (save_preserves_domains_keys fs _).2,
          _, _, rfl⟩
      · rw [if_neg hd, if_pos h]
        exact ⟨(save_preserves_domains_keys fs _).1, (save_preserves_domains_keys fs _).2,
          _, _, rfl⟩

/-- C10 witness: a first-time login on `acme` with password `s3cr3t`,
and a rejected login on `public` that creates no domain and issues no
key. -/
theorem claim10_login_registers_witness :
    (trimSpace (toLower "acme".data) ≠ pubDomain ∧ trimSpace (toLower "acme".data) ≠ [] ∧
      trimSpace "s3cr3t".data ≠ [] ∧
      emptyFS.getDomainFromName (trimSpace (toLower "acme".data)) = none) ∧
    ((∃ key, (handleLogin emptyFS "acme".data "s3cr3t".data "u1".data 0).2 =
        LoginOutcome.redirect (trimSpace (toLower "acme".data)) key) ∧
      (handleLogin emptyFS "acme".data "s3cr3t".data "u1".data 0).1.getDomainFromName
          (trimSpace (toLower "acme".data)) =
        some (⟨trimSpace (toLower "acme".data), trimSpace "s3cr3t".data, false⟩, false)) ∧
    ((handleLogin emptyFS "public".data "pw".data "u2".data 0).1.domains =
        emptyFS.domains ∧
      (handleLogin emptyFS "public".data "pw".data "u2".data 0).1.keys = emptyFS.keys) := by
  have h := (claim10_login_registers emptyFS "acme".data "s3cr3t".data "u1".data 0).1
    ⟨by decide, by decide, by decide, by decide⟩
  have h2 := (claim10_login_registers emptyFS "public".data "pw".data "u2".data 0).2
    (Or.inl (by decide))
  exact ⟨⟨by decide, by decide, by decide, by decide⟩, h, h2.1, h2.2.1⟩

lemma mem_rank_index_lt {m : List Char} {docs : List (List Char)} {s : Scored}
    (h : s ∈ rankBySimilarity m docs) : s.index < docs.length := by
  unfold rankBySimilarity at h
  have h2 := (List.perm_insertionSort scoredLE _).mem_iff.mp h
  obtain ⟨i, hi, rfl⟩ := List.mem_map.mp h2
  exact List.mem_range.mp hi

lemma rank_pairwise (m : List Char) (docs : List (List Char)) :
    (rankBySimilarity m docs).Pairwise
      (fun a b => b.score < a.score ∨ (a.score = b.score ∧ a.index < b.index)) := by
  have hsorted : (rankBySimilarity m docs).Pairwise scoredLE :=
    List.sorted_insertionSort scoredLE _
  have hne : (rankBySimilarity m docs).Pairwise (fun a b => a.index ≠ b.index) := by
    have hbase : ((List.range docs.length).map
        (fun i => ({ index := i, score := jaccard m (docs.getD i []) } : Scored))).Pairwise
          (fun a b => a.index ≠ b.index) :=
      (List.pairwise_lt_range docs.length).map
        (fun i => ({ index := i, score := jaccard m (docs.getD i []) } : Scored))
        (fun a b hab => Nat.ne_of_lt hab)
    exact ((List.perm_insertionSort scoredLE _).pairwise_iff
      (fun hab => Ne.symm hab)).mpr hbase
  refine (hsorted.and hne).imp ?_
  rintro a b ⟨hle | ⟨hs, hi⟩, hne2⟩
  · exact Or.inl hle
  · exact Or.inr ⟨hs, lt_of_le_of_ne hi hne2⟩

lemma corpusIds_ne (fs : FS) (domain fileid : List Char) :
    ∀ i ∈ corpusIds fs domain fileid, i ≠ fileid := by
  intro i hi
  obtain ⟨file, hfmem, rfl⟩ := List.mem_map.mp hi
  have h := List.mem_filter.mp hfmem
  simpa using h.2

/-- C3: the persisted similarity list never contains the target id,
has at most 5 entries, holds only ids of same-domain documents, and the
ranking behind it is strictly ordered: descending score with ties in
original corpus order; an empty comparison corpus yields the empty
list, and the list is what gets persisted for the target. -/
theorem claim3_similarity (fs : FS) (domain fileid : List Char) :
    fileid ∉ similarIdsFor fs domain fileid ∧
    (similarIdsFor fs domain fileid).length ≤ 5 ∧
    (∀ i ∈ similarIdsFor fs domain fileid, ∃ f ∈ fs.getAll domain, f.id = i) ∧
    (ranking fs domain fileid).Pairwise
      (fun a b => b.score < a.score ∨ (a.score = b.score ∧ a.index < b.index)) ∧
    (corpusFiles fs domain fileid = [] → similarIdsFor fs domain fileid = []) ∧
    (addSimilar fs domain fileid).similar.find? (fun kv => kv.1 = fileid) =
      some (fileid, similarIdsFor fs domain fileid) := by
  have hlen : (corpusDocs fs domain fileid).length = (corpusIds fs domain fileid).length := by
    unfold corpusDocs corpusIds
    rw [List.length_map, List.length_map]
  have hmemIds : ∀ s ∈ ranking fs domain fileid,
      (corpusIds fs domain fileid).getD s.index [] ∈ corpusIds fs domain fileid := by
    intro s hs
    have hidx : s.index < (corpusIds fs domain fileid).length :=
      hlen ▸ mem_rank_index_lt (List.mem_of_mem_take hs)
    rw [List.getD_eq_getElem (corpusIds fs domain fileid) [] hidx]
    exact List.getElem_mem hidx
  refine ⟨?_, ?_, ?_, ?_, ?_, ?_⟩
  · intro hmem
    obtain ⟨s, hs, heq⟩ := List.mem_map.mp hmem
    exact corpusIds_ne fs domain fileid _ (hmemIds s hs) heq
  · unfold similarIdsFor ranking
    rw [List.length_map, List.length_take]
    exact min_le_left 5 _
  · intro i hi
    obtain ⟨s, hs, rfl⟩ := List.mem_map.mp hi
    obtain ⟨file, hfmem, hfid⟩ := List.mem_map.mp (hmemIds s hs)
    exact ⟨file, (List.mem_filter.mp hfmem).1, hfid⟩
  · exact (rank_pairwise _ _).sublist (List.take_sublist 5 _)
  · intro h
    simp [similarIdsFor, ranking, rankBySimilarity, corpusDocs, h]
  · unfold addSimilar
    exact List.find?_cons_of_pos _ (by simp)

/-- C3 witness: with `fileA` the only public document, the comparison
corpus for target `a` is empty and the persisted list is empty. -/
theorem claim3_similarity_witness :
    corpusFiles fsWithA pubDomain "a".data = [] ∧
    similarIdsFor fsWithA pubDomain "a".data = [] ∧
    "a".data ∉ similarIdsFor fsWithA pubDomain "a".data := by
  have h := claim3_similarity fsWithA pubDomain "a".data
  exact ⟨by decide, h.2.2.2.2.1 (by decide), h.1⟩

lemma length_bytesBE : ∀ (n v : Nat), (bytesBE n v).length = n
  | 0, _ => rfl
  | n + 1, v => by
    simp [bytesBE, length_bytesBE n (v / 256)]

lemma length_compressBlock (h block : List Nat) : (compressBlock h block).length = 8 := by
  unfold compressBlock
  rw [List.length_map, List.length_range]

lemma length_foldl_compress : ∀ (blocks : List (List Nat)) (h : List Nat),
    (blocks.foldl compressBlock h).length = 8 ∨
      (blocks.foldl compressBlock h).length = h.length
  | [], _ => Or.inr rfl
  | b :: rest, h => by
    simp only [List.foldl_cons]
    rcases length_foldl_compress rest (compressBlock h b) with hl | hl
    · exact Or.inl hl
    · exact Or.inl (hl.trans (length_compressBlock h b))

lemma length_digest : ∀ (l : List Nat),
    (l.foldr (fun w acc => bytesBE 4 w ++ acc) []).length = 4 * l.length
  | [] => rfl
  | w :: rest => by
    have ih := length_digest rest
    simp only [List.foldr_cons, List.length_append, List.length_cons, length_bytesBE] at ih ⊢
    omega

lemma sha256_length (msg : List Nat) : (sha256 msg).length = 32 := by
  unfold sha256
  rw [length_digest]
  rcases length_foldl_compress (shaBlocks (shaPad msg)) shaH0 with hl | hl
  · rw [hl]
  · rw [hl]
    rfl

lemma hexDigit_mem (n : Nat) : hexDigit n ∈ hexAlphabet := by
  unfold hexDigit
  by_cases h : n < hexAlphabet.length
  · rw [List.getD_eq_getElem hexAlphabet '0' h]
    exact List.getElem_mem h
  · rw [List.getD_eq_default]
    · decide
    · omega

lemma hexOfBytes_mem : ∀ (bs : List Nat), ∀ c ∈ hexOfBytes bs, c ∈ hexAlphabet
  | [] => by
    intro c hc
    simp [hexOfBytes] at hc
  | b :: rest => by
    intro c hc
    simp only [hexOfBytes, List.foldr_cons] at hc
    rcases List.mem_cons.mp hc with rfl | hc
    · exact hexDigit_mem _
    · rcases List.mem_cons.mp hc with rfl | hc
      · exact hexDigit_mem _
      · exact hexOfBytes_mem rest c hc

lemma hexOfBytes_length : ∀ (bs : List Nat), (hexOfBytes bs).length = 2 * bs.length
  | [] => rfl
  | b :: rest => by
    have ih := hexOfBytes_length rest
    simp only [hexOfBytes, List.foldr_cons, List.length_cons] at ih ⊢
    omega

lemma getBlob_saveBlob (fs : FS) (id name : List Char) (data : List Nat) :
    (fs.saveBlob id name data).getBlob id = some (name, data) := by
  simp only [FS.saveBlob, FS.getBlob]
  rw [List.find?_cons_of_pos _ (by simp)]
  rfl

set_option maxRecDepth 100000 in
/-- FIPS 180-4 test vector anchoring the digest function: SHA-256 of
the bytes of "abc". -/
theorem sha256_vector_abc :
    hexOfBytes (sha256 [97, 98, 99]) =
      "ba7816bf8f01cfea414140de5dae2223b00361a396177a9cb410ff61f20015ad".data := by
  decide

/-- C8: the blob id is `sha256-` followed by the lowercase hex SHA-256
digest of the uncompressed content — a function of the payload bytes
alone, so identical bytes get identical ids whatever the store, the
compressor, or the filename — and the stored blob is the compressed
content paired with the original filename. -/
theorem claim8_blob_content_addressed (gz gzB : List Nat → List Nat) (fs fsB : FS)
    (name nameB : List Char) (content : List Nat) :
    (handleUpload gz fs name content).2 =
      "sha256-".data ++ hexOfBytes (sha256 content) ∧
    (handleUpload gz fs name content).2 = (handleUpload gzB fsB nameB content).2 ∧
    (hexOfBytes (sha256 content)).length = 64 ∧
    (∀ c ∈ hexOfBytes (sha256 content), c ∈ hexAlphabet) ∧
    (handleUpload gz fs name content).1.getBlob (uploadId content) =
      some (name, gz content) := by
  refine ⟨rfl, rfl, ?_, hexOfBytes_mem _, ?_⟩
  · rw [hexOfBytes_length, sha256_length]
  · exact getBlob_saveBlob fs (uploadId content) name (gz content)

end Rwtxt
